import Mathlib

/-!
Shallow embedding of the Nutrition Tracker data layer (`src/data.py`).

The store is a CSV file with header `Name,Protein,Fat,Carbs,Calories,DateTime`.
`csv.DictReader` yields each data row as a mapping from those header names to
field strings; we model a data row as a structure of six `String` fields
(`Row`).  Timestamps are modelled as seconds on a linear time axis
(`rataDie y m d * 86400 + h*3600 + mi*60 + s`), which preserves the order and
calendar-date projection of Python's naive `datetime` values.  `float` values
are modelled as rationals (`ℚ`), and Python's `round(x, 2)` as round-half-even
at two decimal places on `ℚ`.

Python's `datetime.datetime.fromisoformat` and `float(...)` are embedded as
executable parsers for the textual forms the application reads and writes
(`YYYY-MM-DD`, optionally followed by ` HH:MM:SS` or `THH:MM:SS`, and plain
signed decimal literals); strings outside that grammar are treated as
parse failures.

Functions that call `datetime.datetime.now()` take the evaluation instant as
an explicit parameter, and functions that filter by a date take that date as
an explicit parameter.
-/

namespace NutritionTracker

/-- One data row of the CSV file, as produced by `csv.DictReader`:
the six field strings keyed by the header
`Name,Protein,Fat,Carbs,Calories,DateTime`. -/
structure Row where
  name : String
  protein : String
  fat : String
  carbs : String
  calories : String
  dateTime : String
deriving DecidableEq, Repr

/-- Characters removed by Python str.strip at either end. -/
def stripChars (l : List Char) : List Char :=
  ((l.dropWhile Char.isWhitespace).reverse.dropWhile Char.isWhitespace).reverse

/-- Embedding of Python str.strip(): remove leading and trailing
whitespace. -/
def strip (s : String) : String := ⟨stripChars s.toList⟩

/-- The row-validity gate used by every read path:
`not row.get('Name', '').strip()` skips the row, so a row passes
iff its name is not empty/whitespace-only. -/
def nameValid (r : Row) : Bool := strip r.name ≠ ""

/-! ## Calendar arithmetic (embedding of `datetime`) -/

/-- Gregorian leap-year test. -/
def isLeap (y : Nat) : Bool := (y % 4 == 0 && y % 100 != 0) || y % 400 == 0

/-- Number of days in month `m` of year `y`. -/
def daysInMonth (y m : Nat) : Nat :=
  if m = 2 then (if isLeap y then 29 else 28)
  else if m = 4 ∨ m = 6 ∨ m = 9 ∨ m = 11 then 30
  else 31

/-- Days in year `y` strictly before month `m`. -/
def daysBeforeMonth (y m : Nat) : Nat :=
  (List.range (m - 1)).foldl (fun a i => a + daysInMonth y (i + 1)) 0

/-- Proleptic-Gregorian day number of `y-m-d` (0 = 0001-01-01), the
standard rata-die ordinal that `datetime.date` ordering and equality
project onto. -/
def rataDie (y m d : Nat) : Nat :=
  365 * (y - 1) + (y - 1) / 4 + (y - 1) / 400 - (y - 1) / 100
    + daysBeforeMonth y m + (d - 1)

/-- Two-digit numeral. -/
def d2 (a b : Char) : Option Nat :=
  if a.isDigit && b.isDigit then some ((a.toNat - 48) * 10 + (b.toNat - 48))
  else none

/-- Four-digit numeral. -/
def d4 (a b c d : Char) : Option Nat :=
  match d2 a b, d2 c d with
  | some hi, some lo => some (hi * 100 + lo)
  | _, _ => none

/-- Timestamp (seconds on the linear time axis) of a validated
date-time; `none` when a component is out of range, mirroring the
`ValueError` of `datetime`. -/
def mkTs (y m d h mi s : Nat) : Option Nat :=
  if 1 ≤ y ∧ y ≤ 9999 ∧ 1 ≤ m ∧ m ≤ 12 ∧ 1 ≤ d ∧ d ≤ daysInMonth y m
      ∧ h ≤ 23 ∧ mi ≤ 59 ∧ s ≤ 59 then
    some (rataDie y m d * 86400 + h * 3600 + mi * 60 + s)
  else none

/-- Embedding of `datetime.datetime.fromisoformat` on the textual forms the
application uses: `YYYY-MM-DD` and `YYYY-MM-DD HH:MM:SS` (also with `T` as
separator); anything else is a parse failure (`ValueError`). -/
def fromisoformat (str : String) : Option Nat :=
  match str.toList with
  | [y1, y2, y3, y4, '-', m1, m2, '-', dd1, dd2] =>
      match d4 y1 y2 y3 y4, d2 m1 m2, d2 dd1 dd2 with
      | some y, some m, some d => mkTs y m d 0 0 0
      | _, _, _ => none
  | [y1, y2, y3, y4, '-', m1, m2, '-', dd1, dd2, sep,
     h1, h2, ':', n1, n2, ':', s1, s2] =>
      if sep = ' ' ∨ sep = 'T' then
        match d4 y1 y2 y3 y4, d2 m1 m2, d2 dd1 dd2,
              d2 h1 h2, d2 n1 n2, d2 s1 s2 with
        | some y, some m, some d, some h, some mi, some s => mkTs y m d h mi s
        | _, _, _, _, _, _ => none
      else none
  | _ => none

/-- Calendar date (rata-die day ordinal) of a timestamp: the embedding of
`datetime.date()` applied to a parsed datetime. -/
def dateOf (ts : Nat) : Nat := ts / 86400

/-! ## Numeric coercion (embedding of `float(...)`) -/

/-- Value of a digit string. -/
def natOfDigits (l : List Char) : Nat :=
  l.foldl (fun a c => a * 10 + (c.toNat - 48)) 0

/-- Unsigned decimal literal: digits, optionally with a fractional part;
at least one digit overall. -/
def parseUnsignedQ (l : List Char) : Option ℚ :=
  let ip := l.takeWhile Char.isDigit
  let rest := l.dropWhile Char.isDigit
  match rest with
  | [] => if ip.isEmpty then none else some (natOfDigits ip : ℚ)
  | '.' :: fp =>
      if fp.all Char.isDigit ∧ (ip.isEmpty = false ∨ fp.isEmpty = false) then
        some ((natOfDigits ip : ℚ) + (natOfDigits fp : ℚ) / (10 ^ fp.length))
      else none
  | _ => none

/-- Embedding of Python `float(s)` on decimal literals: surrounding
whitespace is ignored, an optional sign precedes the digits; `none` models
the `ValueError` raised on any other string. -/
def strToFloat (s : String) : Option ℚ :=
  match (strip s).toList with
  | '-' :: rest => (parseUnsignedQ rest).map (fun q => -q)
  | '+' :: rest => parseUnsignedQ rest
  | l => parseUnsignedQ l

/-! ## Rounding (embedding of `round(x, 2)`) -/

/-- Round to the nearest integer, ties to the even integer
(Python's rounding mode). -/
def roundHalfEven (q : ℚ) : ℤ :=
  let f := ⌊q⌋
  let r := q - (f : ℚ)
  if r < 1/2 then f
  else if 1/2 < r then f + 1
  else if f % 2 = 0 then f else f + 1

/-- Rounding as `round(x, 2)`: round-half-even at two decimal places. -/
def round2 (q : ℚ) : ℚ := (roundHalfEven (q * 100) : ℚ) / 100

/-! ## Read / filter path (`get_all_entries`, `scan_csv_for_corruption`,
`get_entries_by_date`, `get_entries_within_week`, `get_entry_by_name`) -/

/-- Embedding of `get_all_entries`: scan all data rows in file order, `continue` past any
row whose `Name` strips to empty, collect the rest. -/
def get_all_entries : List Row → List Row
  | [] => []
  | r :: rest =>
      if strip r.name = "" then get_all_entries rest
      else r :: get_all_entries rest

/-- Loop of `scan_csv_for_corruption`, carrying `corrupt_count`:
a row increments the count when its name strips to empty, or otherwise when
`fromisoformat` fails on its `DateTime` field. -/
def scanAux (acc : Nat) : List Row → Nat
  | [] => acc
  | r :: rest =>
      if strip r.name = "" then scanAux (acc + 1) rest
      else
        match fromisoformat r.dateTime with
        | none => scanAux (acc + 1) rest
        | some _ => scanAux acc rest

/-- Embedding of `scan_csv_for_corruption`: count corrupted rows; read-only — it takes the
store contents and returns only a number. -/
def scan_csv_for_corruption (rows : List Row) : Nat := scanAux 0 rows

/-- Embedding of `get_entries_by_date` at target `date`: rows passing the name gate whose `DateTime`
parses and whose calendar date equals `date`; rows raising
`ValueError`/`KeyError` during parsing are skipped by the `except` clause. -/
def get_entries_by_date (rows : List Row) (date : Nat) : List Row :=
  match rows with
  | [] => []
  | r :: rest =>
      if strip r.name = "" then get_entries_by_date rest date
      else
        match fromisoformat r.dateTime with
        | none => get_entries_by_date rest date
        | some ts =>
            if dateOf ts = date then r :: get_entries_by_date rest date
            else get_entries_by_date rest date

/-- In `get_entries_by_date`, Python evaluates the default argument
`datetime.datetime.now().date()` once, when the module is loaded; every
argument-less call thereafter reuses that same date.  `importNow` is the
instant of module load. -/
def get_entries_by_date_default (importNow : Nat) (rows : List Row) : List Row :=
  get_entries_by_date rows (dateOf importNow)

/-- Embedding of `get_entries_within_week`: `one_week_ago = now - timedelta(days=7)`, then
keep name-valid rows whose parsed timestamp is `>= one_week_ago`.  `now` is
the evaluation instant of `datetime.datetime.now()`. -/
def get_entries_within_week (rows : List Row) (now : Int) : List Row :=
  match rows with
  | [] => []
  | r :: rest =>
      if strip r.name = "" then get_entries_within_week rest now
      else
        match fromisoformat r.dateTime with
        | none => get_entries_within_week rest now
        | some ts =>
            if now - 7 * 86400 ≤ (ts : Int) then r :: get_entries_within_week rest now
            else get_entries_within_week rest now

/-- Embedding of `get_entry_by_name`: scan in file order, skip rows failing the name gate,
append the first row whose `Name` equals `name` and `break`. -/
def get_entry_by_name (rows : List Row) (name : String) : List Row :=
  match rows with
  | [] => []
  | r :: rest =>
      if strip r.name = "" then get_entry_by_name rest name
      else if r.name = name then [r]
      else get_entry_by_name rest name

/-! ## Aggregation (`get_daily_totals`, `get_weekly_averages`) -/

/-- The aggregate record both statistics functions return
(a `dict` with a label and four rounded numbers). -/
structure Aggregate where
  name : String
  protein : ℚ
  fat : ℚ
  carbs : ℚ
  calories : ℚ
deriving DecidableEq, Repr

/-- Running totals of the summation loops. -/
structure Totals where
  protein : ℚ
  fat : ℚ
  carbs : ℚ
  calories : ℚ
deriving DecidableEq, Repr

/-- Body of the summation loop shared by both aggregates: the four `+=`
statements run in order inside one `try`, so a `float` failure aborts the
rest of the row's additions but keeps those already performed. -/
def sumRow (t : Totals) (r : Row) : Totals :=
  match strToFloat r.protein with
  | none => t
  | some p =>
      let t1 : Totals := { t with protein := t.protein + p }
      match strToFloat r.fat with
      | none => t1
      | some f =>
          let t2 : Totals := { t1 with fat := t1.fat + f }
          match strToFloat r.carbs with
          | none => t2
          | some c =>
              let t3 : Totals := { t2 with carbs := t2.carbs + c }
              match strToFloat r.calories with
              | none => t3
              | some k => { t3 with calories := t3.calories + k }

/-- Embedding of `get_daily_totals`: scan the given date (the argument-less call passes
the module-load default, see `get_entries_by_date_default`); `None` when the
scan is empty, otherwise the summed and rounded `"Daily Total"` record in a
one-element list. -/
def get_daily_totals (rows : List Row) (date : Nat) : Option (List Aggregate) :=
  let entries := get_entries_by_date rows date
  if entries = [] then none
  else
    let t := entries.foldl sumRow ⟨0, 0, 0, 0⟩
    some [⟨"Daily Total", round2 t.protein, round2 t.fat,
           round2 t.carbs, round2 t.calories⟩]

/-- Embedding of `get_weekly_averages`: scan the trailing 7-day window; `None` when the
scan is empty, otherwise each total divided by `count = len(entries)` and
rounded, labelled `"Weekly Average"`. -/
def get_weekly_averages (rows : List Row) (now : Int) : Option (List Aggregate) :=
  let entries := get_entries_within_week rows now
  if entries = [] then none
  else
    let t := entries.foldl sumRow ⟨0, 0, 0, 0⟩
    let count : ℚ := entries.length
    some [⟨"Weekly Average", round2 (t.protein / count), round2 (t.fat / count),
           round2 (t.carbs / count), round2 (t.calories / count)⟩]

/-- Per-row contribution to the four running totals.  Because the four
additions run in order inside one `try`, the fields coerced before the first
failing field contribute their values and the failing field together with all
later fields contribute nothing. -/
def rowContrib (r : Row) : Totals :=
  match strToFloat r.protein with
  | none => ⟨0, 0, 0, 0⟩
  | some p =>
      match strToFloat r.fat with
      | none => ⟨p, 0, 0, 0⟩
      | some f =>
          match strToFloat r.carbs with
          | none => ⟨p, f, 0, 0⟩
          | some c =>
              match strToFloat r.calories with
              | none => ⟨p, f, c, 0⟩
              | some k => ⟨p, f, c, k⟩

/-! ## CSV record encoding and decoding (`csv.writer` / `csv.DictReader`).
The writer quotes a field iff it contains the delimiter, the quote character
or a line-terminator character (QUOTE_MINIMAL), doubling embedded quotes; the
reader undoes this. A store file is modelled as the list of its encoded data
records (the header row is consumed by `DictReader` as field names). -/

/-- Criterion of QUOTE_MINIMAL: quote a field iff it holds the delimiter,
the quote character or a line-terminator character. -/
def needsQuote (s : List Char) : Bool :=
  s.any (fun c => c = ',' || c = '"' || c = '\n' || c = '\r')

/-- Double every embedded quote character. -/
def csvEscape : List Char → List Char
  | [] => []
  | c :: cs => if c = '"' then '"' :: '"' :: csvEscape cs else c :: csvEscape cs

/-- Encode one field per QUOTE_MINIMAL. -/
def encodeField (s : List Char) : List Char :=
  if needsQuote s then '"' :: (csvEscape s ++ ['"']) else s

/-- Encode one record: fields joined by the delimiter. -/
def encodeRecord : List (List Char) → List Char
  | [] => []
  | [f] => encodeField f
  | f :: fs => encodeField f ++ ',' :: encodeRecord fs

/-- Scan the body of a quoted field: a doubled quote is one literal quote,
a single quote closes the field; running out of input is a failure. -/
def parseQuotedBody : List Char → Option (List Char × List Char)
  | [] => none
  | c :: cs =>
      if c = '"' then
        match cs with
        | [] => some ([], [])
        | c2 :: cs2 =>
            if c2 = '"' then
              (parseQuotedBody cs2).map (fun p => ('"' :: p.1, p.2))
            else some ([], c2 :: cs2)
      else (parseQuotedBody cs).map (fun p => (c :: p.1, p.2))

/-- Scan an unquoted field: everything up to the next delimiter. -/
def takeUntilComma : List Char → List Char × List Char
  | [] => ([], [])
  | c :: cs =>
      if c = ',' then ([], c :: cs)
      else
        let p := takeUntilComma cs
        (c :: p.1, p.2)

/-- Parse one field: a leading quote opens a quoted field, anything else
starts an unquoted one. -/
def parseOneField (l : List Char) : Option (List Char × List Char) :=
  match l with
  | [] => some (takeUntilComma [])
  | c :: cs =>
      if c = '"' then parseQuotedBody cs
      else some (takeUntilComma (c :: cs))

/-- Parse the fields of one record; `fuel` bounds the number of fields. -/
def parseRecordAux : Nat → List Char → Option (List (List Char))
  | 0, _ => none
  | fuel + 1, input =>
      match parseOneField input with
      | none => none
      | some (f, rest) =>
          match rest with
          | [] => some [f]
          | ',' :: rest2 => (parseRecordAux fuel rest2).map (fun fs => f :: fs)
          | _ => none

/-- Parse one encoded record into its fields. -/
def parseRecord (line : List Char) : Option (List (List Char)) :=
  parseRecordAux (line.length + 1) line

/-- Embedding of `write_nutrition_data`: `csv.writer(file).writerow(data)`
appends one encoded record to the store file.  The six field values arrive
already stringified (name, `str()` of the numbers, `str()` of the datetime). -/
def write_nutrition_data (file : List (List Char)) (data : List (List Char)) :
    List (List Char) :=
  file ++ [encodeRecord data]

/-- Field values of an entry in header order, as written by the writer. -/
def fieldsOfRow (r : Row) : List (List Char) :=
  [r.name.toList, r.protein.toList, r.fat.toList, r.carbs.toList,
   r.calories.toList, r.dateTime.toList]

/-- Zip of `csv.DictReader` field names with the decoded field values of a
record of the six columns. -/
def rowOfFields : List (List Char) → Option Row
  | [n, p, f, c, k, dt] => some ⟨⟨n⟩, ⟨p⟩, ⟨f⟩, ⟨c⟩, ⟨k⟩, ⟨dt⟩⟩
  | _ => none

/-- Decoding of one stored record into a `Row` candidate. -/
def decodeRow (line : List Char) : Option Row :=
  (parseRecord line).bind rowOfFields

/-- File-level view of `get_all_entries`: decode each stored record, then
apply the scan loop with its name gate. -/
def get_all_entries_file (file : List (List Char)) : List Row :=
  get_all_entries (file.filterMap decodeRow)

/-- Specification-side window predicate of the claim: a name-valid row whose
parsed timestamp is at least `now` minus seven days. -/
def inWindow (now : Int) (r : Row) : Bool :=
  nameValid r &&
    match fromisoformat r.dateTime with
    | some ts => decide (now - 7 * 86400 ≤ (ts : Int))
    | none => false

/-! ## Concrete stores used in witnesses and counterexamples.
The reference instant is `now` = 2026-10-08 12:00:00, timestamp 63927057600;
2026-10-09 08:00:00 has timestamp 63927129600. -/

/-- A well-formed entry. -/
def validRow : Row := ⟨"Oatmeal", "10", "5", "60", "320", "2026-10-08 12:00:00"⟩

/-- A corrupted entry: whitespace-only name. -/
def wsNameRow : Row := ⟨"  ", "1", "1", "1", "1", "2026-10-08 12:00:00"⟩

/-- Entry timestamped at the reference instant `now`. -/
def rowNow : Row := ⟨"A", "1", "1", "1", "1", "2026-10-08 12:00:00"⟩

/-- Entry timestamped at `now` minus 1 day. -/
def rowMinus1d : Row := ⟨"B", "1", "1", "1", "1", "2026-10-07 12:00:00"⟩

/-- Entry timestamped at `now` minus 6 days 23 hours. -/
def rowMinus6d23h : Row := ⟨"C", "1", "1", "1", "1", "2026-10-01 13:00:00"⟩

/-- Entry timestamped at `now` minus 7 days 1 hour. -/
def rowMinus7d1h : Row := ⟨"D", "1", "1", "1", "1", "2026-10-01 11:00:00"⟩

/-- Entry whose name is the single space character. -/
def wsQueryRow : Row := ⟨" ", "1", "1", "1", "1", "2026-10-08 12:00:00"⟩

/-- A same-day entry with all-zero macros. -/
def zeroRow : Row := ⟨"Zero", "0", "0", "0", "0", "2026-10-08 12:00:00"⟩

/-- An otherwise valid same-day entry whose `Fat` field fails numeric
coercion while `Protein`, `Carbs` and `Calories` would coerce. -/
def badFatRow : Row := ⟨"A", "10", "oops", "5", "100", "2026-10-08 12:00:00"⟩

/-- An in-window entry with a malformed `Fat` field, dated `now` minus 1 day. -/
def badFatWeekRow : Row := ⟨"M", "10", "oops", "4", "100", "2026-10-07 12:00:00"⟩

/-- An entry logged the day after the module was imported. -/
def lateRow : Row := ⟨"Late", "7", "7", "7", "7", "2026-10-09 08:00:00"⟩

/-- An entry whose name contains the field delimiter. -/
def commaRow : Row := ⟨"Oat, meal", "10", "5.5", "60", "320", "2026-10-08 12:00:00"⟩

/-! ## Scan-loop characterization lemmas -/

/-- The full scan is the name-gate filter. -/
theorem get_all_entries_eq_filter (rows : List Row) :
    get_all_entries rows = rows.filter nameValid := by
  induction rows with
  | nil => rfl
  | cons r rest ih =>
      by_cases h : strip r.name = "" <;>
        simp [get_all_entries, List.filter_cons, nameValid, h, ih]

/-- The corruption loop adds to its accumulator the number of rows whose
name strips to empty or whose timestamp fails to parse. -/
theorem scanAux_eq (rows : List Row) : ∀ acc : Nat,
    scanAux acc rows =
      acc + rows.countP
        (fun r => strip r.name = "" ∨ fromisoformat r.dateTime = none) := by
  induction rows with
  | nil => intro acc; simp [scanAux]
  | cons r rest ih =>
      intro acc
      by_cases h : strip r.name = ""
      · simp [scanAux, h, ih, List.countP_cons]
        omega
      · cases hdt : fromisoformat r.dateTime <;>
          simp [scanAux, h, hdt, ih, List.countP_cons]
        all_goals omega

/-- The date scan is the filter by name gate, parse success and date match. -/
theorem get_entries_by_date_eq_filter (rows : List Row) (date : Nat) :
    get_entries_by_date rows date =
      rows.filter (fun r => nameValid r &&
        match fromisoformat r.dateTime with
        | some ts => decide (dateOf ts = date)
        | none => false) := by
  induction rows with
  | nil => rfl
  | cons r rest ih =>
      by_cases h : strip r.name = ""
      · simp [get_entries_by_date, h, List.filter_cons, nameValid, ih]
      · cases hdt : fromisoformat r.dateTime with
        | none =>
            simp [get_entries_by_date, h, hdt, List.filter_cons, nameValid, ih]
        | some ts =>
            by_cases hd : dateOf ts = date <;>
              simp [get_entries_by_date, h, hdt, hd, List.filter_cons,
                nameValid, ih]

/-- The window scan is the filter by the window predicate. -/
theorem get_entries_within_week_eq_filter (rows : List Row) (now : Int) :
    get_entries_within_week rows now = rows.filter (inWindow now) := by
  induction rows with
  | nil => rfl
  | cons r rest ih =>
      by_cases h : strip r.name = ""
      · simp [get_entries_within_week, h, List.filter_cons, inWindow,
          nameValid, ih]
      · cases hdt : fromisoformat r.dateTime with
        | none =>
            simp [get_entries_within_week, h, hdt, List.filter_cons, inWindow,
              nameValid, ih]
        | some ts =>
            by_cases hw : now - 7 * 86400 ≤ (ts : Int) <;>
              simp [get_entries_within_week, h, hdt, hw, List.filter_cons,
                inWindow, nameValid, ih]

/-- One loop step of the summation adds exactly the row's contribution to
each of the four accumulators. -/
theorem sumRow_eq (t : Totals) (r : Row) :
    sumRow t r =
      ⟨t.protein + (rowContrib r).protein, t.fat + (rowContrib r).fat,
       t.carbs + (rowContrib r).carbs,
       t.calories + (rowContrib r).calories⟩ := by
  unfold sumRow rowContrib
  cases strToFloat r.protein <;> cases strToFloat r.fat <;>
    cases strToFloat r.carbs <;> cases strToFloat r.calories <;> simp

/-- The summation loop computes, in each accumulator, the initial value plus
the sum of the per-row contributions. -/
theorem foldl_sumRow (l : List Row) : ∀ t : Totals,
    l.foldl sumRow t =
      ⟨t.protein + (l.map (fun r => (rowContrib r).protein)).sum,
       t.fat + (l.map (fun r => (rowContrib r).fat)).sum,
       t.carbs + (l.map (fun r => (rowContrib r).carbs)).sum,
       t.calories + (l.map (fun r => (rowContrib r).calories)).sum⟩ := by
  induction l with
  | nil => intro t; cases t; simp
  | cons r rest ih =>
      intro t
      simp only [List.foldl_cons, sumRow_eq, ih, List.map_cons, List.sum_cons,
        Totals.mk.injEq]
      refine ⟨by ring, by ring, by ring, by ring⟩

/-! ## Claim theorems -/

/-- C3: for every store contents (any sequence of raw rows after the
header), every row returned by the full scan has a name that is neither
empty nor whitespace-only, no matter how many such rows the backing file
holds. -/
theorem C3_name_gate (rows : List Row) (r : Row)
    (h : r ∈ get_all_entries rows) : strip r.name ≠ "" := by
  rw [get_all_entries_eq_filter] at h
  have hp := (List.mem_filter.mp h).2
  simpa [nameValid] using hp

/-- Witness for C3: a store holding one whitespace-named row and one valid
row; the valid row is returned and its name does not strip to empty. -/
theorem C3_name_gate_witness :
    validRow ∈ get_all_entries [wsNameRow, validRow] ∧
    strip validRow.name ≠ "" :=
  ⟨by decide, C3_name_gate [wsNameRow, validRow] validRow (by decide)⟩

/-- C4: for every store contents, the corruption scan returns exactly the
number of non-header rows whose name is empty/whitespace-only or whose
`DateTime` field fails to parse; in particular it returns `0`, not an
error, when no such row exists, and being a plain function of the store
contents it never mutates the store. -/
theorem C4_corruption_count (rows : List Row) :
    scan_csv_for_corruption rows =
      rows.countP
        (fun r => strip r.name = "" ∨ fromisoformat r.dateTime = none) := by
  simpa [scan_csv_for_corruption] using scanAux_eq rows 0

/-- C5: for every store and every evaluation instant, the trailing-window
scan returns exactly the name-valid rows whose parsed timestamp is at least
`now` minus seven days; on the four-entry store timestamped at `now`,
`now` minus 1 day, minus 6 days 23 hours and minus 7 days 1 hour, the
first three are kept and the fourth is dropped. -/
theorem C5_window_correctness :
    (∀ (rows : List Row) (now : Int),
        get_entries_within_week rows now = rows.filter (inWindow now)) ∧
    get_entries_within_week [rowNow, rowMinus1d, rowMinus6d23h, rowMinus7d1h]
        63927057600 = [rowNow, rowMinus1d, rowMinus6d23h] :=
  ⟨get_entries_within_week_eq_filter, by decide⟩

/-- C7 counterexample: with the single-row store named `" "` and the query
`" "`, the first row in scan order matches the query exactly and
case-sensitively, yet the lookup returns the empty result — the claim as
stated fails because the name gate runs before the match test. -/
theorem C7_counterexample :
    wsQueryRow.name = " " ∧ get_entry_by_name [wsQueryRow] " " = [] := by
  decide

/-- C7 amended: the lookup returns at most one row, namely the first row in
scan order that passes the name gate and whose name equals the query
exactly and case-sensitively, and the empty result when no gate-passing
row matches; a later duplicate is ignored when an earlier match exists. -/
theorem C7_first_match (rows : List Row) (name : String) :
    get_entry_by_name rows name =
      (rows.filter (fun r => nameValid r && decide (r.name = name))).take 1 := by
  induction rows with
  | nil => rfl
  | cons r rest ih =>
      by_cases h : strip r.name = ""
      · simp [get_entry_by_name, h, List.filter_cons, nameValid, ih]
      · by_cases hn : r.name = name
        · subst hn
          simp [get_entry_by_name, h, List.filter_cons, nameValid]
        · simp [get_entry_by_name, h, hn, List.filter_cons, nameValid, ih]

/-- C8: both aggregates return the distinguished absence value `none`
exactly when their source scan returns the empty list — never a zero-filled
record — while a store with one same-day all-zero entry yields a genuine
zero-valued `"Daily Total"` record, distinguishable from absence. -/
theorem C8_absence_vs_zero :
    (∀ (rows : List Row) (date : Nat),
        get_daily_totals rows date = none ↔
          get_entries_by_date rows date = []) ∧
    (∀ (rows : List Row) (now : Int),
        get_weekly_averages rows now = none ↔
          get_entries_within_week rows now = []) ∧
    get_daily_totals [zeroRow] (dateOf 63927057600) =
      some [⟨"Daily Total", 0, 0, 0, 0⟩] := by
  refine ⟨?_, ?_, ?_⟩
  · intro rows date
    rcases eq_or_ne (get_entries_by_date rows date) [] with he | he <;>
      simp [get_daily_totals, he]
  · intro rows now
    rcases eq_or_ne (get_entries_within_week rows now) [] with he | he <;>
      simp [get_weekly_averages, he]
  · have h : get_entries_by_date [zeroRow] (dateOf 63927057600) = [zeroRow] := by
      decide
    have hz : rowContrib zeroRow = ⟨0, 0, 0, 0⟩ := by decide
    simp [get_daily_totals, h, sumRow_eq, hz]
    norm_num [round2, roundHalfEven]

/-- C10: the weekly aggregate never divides by zero — whenever it produces
a record (so the division by the row count was reached), the window scan
held at least one row, the absence value having been returned before
dividing otherwise. -/
theorem C10_no_division_by_zero (rows : List Row) (now : Int)
    (a : List Aggregate) (h : get_weekly_averages rows now = some a) :
    1 ≤ (get_entries_within_week rows now).length := by
  by_cases he : get_entries_within_week rows now = []
  · simp [get_weekly_averages, he] at h
  · exact List.length_pos.mpr he

/-- Witness for C10: a one-row window produces a record, and the divisor —
the length of the window scan — is one. -/
theorem C10_no_division_by_zero_witness :
    get_weekly_averages [rowNow] 63927057600 =
      some [⟨"Weekly Average", 1, 1, 1, 1⟩] ∧
    1 ≤ (get_entries_within_week [rowNow] 63927057600).length := by
  have h : get_weekly_averages [rowNow] 63927057600 =
      some [⟨"Weekly Average", 1, 1, 1, 1⟩] := by
    have hw : get_entries_within_week [rowNow] 63927057600 = [rowNow] := by
      decide
    have hc : rowContrib rowNow = ⟨1, 1, 1, 1⟩ := by decide
    simp [get_weekly_averages, hw, sumRow_eq, hc]
    norm_num [round2, roundHalfEven]
  exact ⟨h, C10_no_division_by_zero [rowNow] 63927057600 _ h⟩

/-- C1 counterexample: a single same-day row with `Protein "10"`,
`Fat "oops"`, `Carbs "5"`, `Calories "100"` — its `Fat` coercion fails, yet
the protein total is 10, not 0: the row is not excluded as a whole, its
`Protein` field did contribute. -/
theorem C1_counterexample :
    strToFloat badFatRow.fat = none ∧
    get_daily_totals [badFatRow] (dateOf 63927057600) =
      some [⟨"Daily Total", 10, 0, 0, 0⟩] ∧
    get_daily_totals [badFatRow] (dateOf 63927057600) ≠
      some [⟨"Daily Total", 0, 0, 0, 0⟩] := by
  have h : get_entries_by_date [badFatRow] (dateOf 63927057600) =
      [badFatRow] := by decide
  have hc : rowContrib badFatRow = ⟨10, 0, 0, 0⟩ := by decide
  have h2 : get_daily_totals [badFatRow] (dateOf 63927057600) =
      some [⟨"Daily Total", 10, 0, 0, 0⟩] := by
    simp [get_daily_totals, h, sumRow_eq, hc]
    norm_num [round2, roundHalfEven]
  refine ⟨by decide, h2, ?_⟩
  rw [h2]
  intro hEq
  simp at hEq

/-- C1 amended: in the daily-totals summation, a row whose numeric coercion
fails part-way through is not excluded as a whole row: the fields coerced
before the first failure (in the fixed order Protein, Fat, Carbs, Calories)
still contribute to their totals, while the failing field and all later
fields of that row contribute nothing. -/
theorem C1_partial_row_contribution (rows : List Row) (date : Nat)
    (h : get_entries_by_date rows date ≠ []) :
    get_daily_totals rows date =
      some [⟨"Daily Total",
        round2 ((get_entries_by_date rows date).map
          (fun r => (rowContrib r).protein)).sum,
        round2 ((get_entries_by_date rows date).map
          (fun r => (rowContrib r).fat)).sum,
        round2 ((get_entries_by_date rows date).map
          (fun r => (rowContrib r).carbs)).sum,
        round2 ((get_entries_by_date rows date).map
          (fun r => (rowContrib r).calories)).sum⟩] ∧
    (∀ r : Row, strToFloat r.protein = none → rowContrib r = ⟨0, 0, 0, 0⟩) ∧
    (∀ r : Row, ∀ p, strToFloat r.protein = some p →
        strToFloat r.fat = none → rowContrib r = ⟨p, 0, 0, 0⟩) ∧
    (∀ r : Row, ∀ p f, strToFloat r.protein = some p →
        strToFloat r.fat = some f → strToFloat r.carbs = none →
        rowContrib r = ⟨p, f, 0, 0⟩) ∧
    (∀ r : Row, ∀ p f c, strToFloat r.protein = some p →
        strToFloat r.fat = some f → strToFloat r.carbs = some c →
        strToFloat r.calories = none → rowContrib r = ⟨p, f, c, 0⟩) := by
  refine ⟨?_, ?_, ?_, ?_, ?_⟩
  · simp [get_daily_totals, h, foldl_sumRow]
  · intro r hr
    simp [rowContrib, hr]
  · intro r p hp hf
    simp [rowContrib, hp, hf]
  · intro r p f hp hf hc
    simp [rowContrib, hp, hf, hc]
  · intro r p f c hp hf hc hk
    simp [rowContrib, hp, hf, hc, hk]

/-- Witness for the amended C1 at the concrete store whose only row has a
malformed `Fat` field. -/
theorem C1_partial_row_contribution_witness :
    get_entries_by_date [badFatRow] (dateOf 63927057600) ≠ [] ∧
    get_daily_totals [badFatRow] (dateOf 63927057600) =
      some [⟨"Daily Total",
        round2 ((get_entries_by_date [badFatRow] (dateOf 63927057600)).map
          (fun r => (rowContrib r).protein)).sum,
        round2 ((get_entries_by_date [badFatRow] (dateOf 63927057600)).map
          (fun r => (rowContrib r).fat)).sum,
        round2 ((get_entries_by_date [badFatRow] (dateOf 63927057600)).map
          (fun r => (rowContrib r).carbs)).sum,
        round2 ((get_entries_by_date [badFatRow] (dateOf 63927057600)).map
          (fun r => (rowContrib r).calories)).sum⟩] :=
  ⟨by decide,
   (C1_partial_row_contribution [badFatRow] (dateOf 63927057600) (by decide)).1⟩

/-- C6: for every store and evaluation instant with a non-empty
trailing-7-day scan, the weekly aggregate divides each summed field by the
count of all rows present in the window — whether or not every numeric
field of a row coerced — and rounds each resulting average to two decimal
places, labelling the record "Weekly Average". -/
theorem C6_weekly_average_divisor (rows : List Row) (now : Int)
    (h : get_entries_within_week rows now ≠ []) :
    get_weekly_averages rows now =
      some [⟨"Weekly Average",
        round2 (((get_entries_within_week rows now).map
          (fun r => (rowContrib r).protein)).sum /
            ((get_entries_within_week rows now).length : ℚ)),
        round2 (((get_entries_within_week rows now).map
          (fun r => (rowContrib r).fat)).sum /
            ((get_entries_within_week rows now).length : ℚ)),
        round2 (((get_entries_within_week rows now).map
          (fun r => (rowContrib r).carbs)).sum /
            ((get_entries_within_week rows now).length : ℚ)),
        round2 (((get_entries_within_week rows now).map
          (fun r => (rowContrib r).calories)).sum /
            ((get_entries_within_week rows now).length : ℚ))⟩] := by
  simp [get_weekly_averages, h, foldl_sumRow]

/-- Witness for C6 at a two-row window whose second row has a malformed
`Fat` field: the divisor is the full row count 2, not the number of rows
that coerced completely. -/
theorem C6_weekly_average_divisor_witness :
    get_entries_within_week [rowNow, badFatWeekRow] 63927057600 ≠ [] ∧
    get_weekly_averages [rowNow, badFatWeekRow] 63927057600 =
      some [⟨"Weekly Average",
        round2 (((get_entries_within_week [rowNow, badFatWeekRow]
            63927057600).map (fun r => (rowContrib r).protein)).sum /
          ((get_entries_within_week [rowNow, badFatWeekRow]
            63927057600).length : ℚ)),
        round2 (((get_entries_within_week [rowNow, badFatWeekRow]
            63927057600).map (fun r => (rowContrib r).fat)).sum /
          ((get_entries_within_week [rowNow, badFatWeekRow]
            63927057600).length : ℚ)),
        round2 (((get_entries_within_week [rowNow, badFatWeekRow]
            63927057600).map (fun r => (rowContrib r).carbs)).sum /
          ((get_entries_within_week [rowNow, badFatWeekRow]
            63927057600).length : ℚ)),
        round2 (((get_entries_within_week [rowNow, badFatWeekRow]
            63927057600).map (fun r => (rowContrib r).calories)).sum /
          ((get_entries_within_week [rowNow, badFatWeekRow]
            63927057600).length : ℚ))⟩] :=
  ⟨by decide,
   C6_weekly_average_divisor [rowNow, badFatWeekRow] 63927057600 (by decide)⟩

/-- C9: the argument-less date query does not filter by the calendar date
current at each invocation.  Python evaluates the default argument
`datetime.datetime.now().date()` once at module load (here instant
63927057600, 2026-10-08 12:00), so an entry logged at the later call
instant 63927129600 (2026-10-09 08:00) is missed by the default call even
though filtering by the date current at that call returns it. -/
theorem C9_default_date_fixed_at_import :
    get_entries_by_date_default 63927057600 [lateRow] = [] ∧
    get_entries_by_date [lateRow] (dateOf 63927129600) = [lateRow] ∧
    dateOf 63927057600 ≠ dateOf 63927129600 := by decide

/-! ## CSV round-trip lemmas -/

/-- A field that QUOTE_MINIMAL leaves unquoted holds neither the delimiter
nor the quote character. -/
theorem needsQuote_spec (s : List Char) (h : needsQuote s = false) :
    ∀ c ∈ s, c ≠ ',' ∧ c ≠ '"' := by
  intro c hc
  simp only [needsQuote, List.any_eq_false] at h
  have hch := h c hc
  simp only [Bool.or_eq_true, decide_eq_true_eq, not_or] at hch
  exact ⟨hch.1.1.1, hch.1.1.2⟩

/-- The unquoted scanner consumes a comma-free input whole. -/
theorem takeUntilComma_no_comma (s : List Char) (h : ∀ c ∈ s, c ≠ ',') :
    takeUntilComma s = (s, []) := by
  induction s with
  | nil => rfl
  | cons c cs ih =>
      have hc : c ≠ ',' := h c (List.mem_cons_self c cs)
      simp [takeUntilComma, hc,
        ih (fun x hx => h x (List.mem_cons_of_mem c hx))]

/-- The unquoted scanner stops at the first comma after a comma-free
run. -/
theorem takeUntilComma_append_comma (s r : List Char)
    (h : ∀ c ∈ s, c ≠ ',') :
    takeUntilComma (s ++ ',' :: r) = (s, ',' :: r) := by
  induction s with
  | nil => simp [takeUntilComma]
  | cons c cs ih =>
      have hc : c ≠ ',' := h c (List.mem_cons_self c cs)
      simp [takeUntilComma, hc,
        ih (fun x hx => h x (List.mem_cons_of_mem c hx))]

/-- Scanning a quote-doubled body followed by the closing quote recovers
the body and leaves the remainder, whenever the remainder does not itself
begin with a quote. -/
theorem parseQuotedBody_escape (s r : List Char)
    (hr : r.head? ≠ some '"') :
    parseQuotedBody (csvEscape s ++ '"' :: r) = some (s, r) := by
  induction s with
  | nil =>
      cases r with
      | nil => simp [csvEscape, parseQuotedBody]
      | cons c2 cs2 =>
          have hc2 : c2 ≠ '"' := by simpa using hr
          simp [csvEscape, parseQuotedBody, hc2]
  | cons c cs ih =>
      by_cases hq : c = '"'
      · subst hq
        simp [csvEscape, parseQuotedBody, ih]
      · simp only [csvEscape, if_neg hq, List.cons_append]
        rw [parseQuotedBody.eq_def]
        simp [hq, ih]

/-- Parsing an encoded field followed by nothing or by a comma recovers the
field. -/
theorem parseOneField_encode (s r : List Char)
    (hr : r = [] ∨ r.head? = some ',') :
    parseOneField (encodeField s ++ r) = some (s, r) := by
  by_cases hq : needsQuote s
  · have hr' : r.head? ≠ some '"' := by
      rcases hr with h | h
      · simp [h]
      · simp [h]
    have := parseQuotedBody_escape s r hr'
    simp [encodeField, hq, parseOneField, List.append_assoc, this]
  · have hprops := needsQuote_spec s (by simpa using hq)
    have hnc : ∀ c ∈ s, c ≠ ',' := fun c hc => (hprops c hc).1
    cases s with
    | nil =>
        rcases hr with h | h
        · subst h
          simp [encodeField, hq, parseOneField, takeUntilComma]
        · cases r with
          | nil => simp at h
          | cons cr rr =>
              have hcr : cr = ',' := by simpa using h
              subst hcr
              simp [encodeField, hq, parseOneField, takeUntilComma]
    | cons c cs =>
        have hcq : c ≠ '"' := (hprops c (List.mem_cons_self c cs)).2
        rcases hr with h | h
        · subst h
          rw [List.append_nil]
          simp only [encodeField, if_neg hq, parseOneField]
          rw [if_neg hcq]
          exact congrArg some (takeUntilComma_no_comma (c :: cs) hnc)
        · cases r with
          | nil => simp at h
          | cons cr rr =>
              have hcr : cr = ',' := by simpa using h
              subst hcr
              simp only [encodeField, if_neg hq, List.cons_append,
                parseOneField]
              rw [if_neg hcq]
              exact congrArg some (takeUntilComma_append_comma (c :: cs) rr hnc)

/-- Parsing an encoded non-empty record with enough fuel recovers all its
fields. -/
theorem parseRecordAux_encode (fs : List (List Char)) : fs ≠ [] →
    ∀ fuel, fs.length ≤ fuel →
    parseRecordAux fuel (encodeRecord fs) = some fs := by
  induction fs with
  | nil => intro h; exact absurd rfl h
  | cons f fs ih =>
      intro _ fuel hfuel
      obtain ⟨fuel', rfl⟩ : ∃ k, fuel = k + 1 :=
        ⟨fuel - 1, by simp at hfuel; omega⟩
      cases fs with
      | nil =>
          have h1 : parseOneField (encodeField f ++ []) = some (f, []) :=
            parseOneField_encode f [] (Or.inl rfl)
          rw [List.append_nil] at h1
          simp [encodeRecord, parseRecordAux, h1]
      | cons f2 fs2 =>
          have h1 : parseOneField
              (encodeField f ++ ',' :: encodeRecord (f2 :: fs2)) =
              some (f, ',' :: encodeRecord (f2 :: fs2)) :=
            parseOneField_encode f _ (Or.inr rfl)
          have h2 := ih (by simp) fuel' (by simp at hfuel ⊢; omega)
          simp [encodeRecord, parseRecordAux, h1, h2]

/-- An encoded record is at least one character per field beyond the
first. -/
theorem length_encodeRecord (fs : List (List Char)) :
    fs.length ≤ (encodeRecord fs).length + 1 := by
  induction fs with
  | nil => simp [encodeRecord]
  | cons f fs ih =>
      cases fs with
      | nil => simp [encodeRecord]
      | cons f2 fs2 =>
          simp [encodeRecord, List.length_append] at ih ⊢
          omega

/-- Record-level round trip: the reader recovers exactly the fields the
writer encoded, for every non-empty field list — commas, quotes and
newlines inside fields included. -/
theorem parseRecord_encodeRecord (fs : List (List Char)) (h : fs ≠ []) :
    parseRecord (encodeRecord fs) = some fs :=
  parseRecordAux_encode fs h _ (length_encodeRecord fs)

/-- Row-level round trip through encoding and `DictReader` decoding. -/
theorem decodeRow_encode (e : Row) :
    decodeRow (encodeRecord (fieldsOfRow e)) = some e := by
  rw [decodeRow, parseRecord_encodeRecord _ (by simp [fieldsOfRow])]
  rfl

/-- C2: for every store state and every entry passing the name-validity
gate of the data model, appending the entry and then re-reading the store
returns a list whose last element is that entry, all six fields equal —
including names that contain the delimiter, which the writer quotes and
the reader unquotes. -/
theorem C2_roundtrip (file : List (List Char)) (e : Row)
    (h : strip e.name ≠ "") :
    (get_all_entries_file
        (write_nutrition_data file (fieldsOfRow e))).getLast? = some e := by
  rw [get_all_entries_file, write_nutrition_data, List.filterMap_append]
  have hd : List.filterMap decodeRow [encodeRecord (fieldsOfRow e)] = [e] := by
    simp [decodeRow_encode e]
  rw [hd, get_all_entries_eq_filter, List.filter_append]
  have hf : List.filter nameValid [e] = [e] := by simp [nameValid, h]
  rw [hf]
  exact List.getLast?_concat _

/-- Witness for C2: an entry named with an embedded comma appended to the
empty store and read back intact. -/
theorem C2_roundtrip_witness :
    strip commaRow.name ≠ "" ∧
    (get_all_entries_file
        (write_nutrition_data [] (fieldsOfRow commaRow))).getLast? =
      some commaRow :=
  ⟨by decide, C2_roundtrip [] commaRow (by decide)⟩

end NutritionTracker
